import Mathlib

/-!
Verification development for the StartCop regulatory-readiness engine and
its frontend glue (file dropzone, report page).

The repository ships a React frontend (`file-dropzone.tsx`,
`NewApplication.tsx` / `ReportPage`) but no executable backend: the
backend directory holds only a README describing the engine.  The
backend-side definitions below are therefore modelled from the spec
(each such definition says so in its doc comment); the frontend-side
definitions are shallow embeddings of the TypeScript source.
-/

namespace StartCop

/-- Gap severity, from the spec's data model: riskLevel in {low, medium, high}
and the frontend's `risk: 'high' | 'medium' | 'low'`. -/
inductive RiskLevel where
  | low
  | medium
  | high
deriving DecidableEq, Repr

/-- Modelled from the spec: the Gap record of §3,
{id, title, description, riskLevel, articleRef, category, impactText}. -/
structure Gap where
  id : String
  title : String
  description : String
  riskLevel : RiskLevel
  articleRef : String
  category : String
  impactText : String
deriving DecidableEq, Repr

/-- Modelled from the spec: the severity-weighted penalty table of §4.6
(high = 30, medium = 15, low = 5, configurable).  A penalty configuration
is any function `RiskLevel → ℚ`; this is the default one. -/
def defaultPenalty : RiskLevel → ℚ
  | RiskLevel.high => 30
  | RiskLevel.medium => 15
  | RiskLevel.low => 5

/-- Modelled from the spec: §4.6 — a category's score starts at 100 and is
decremented per Gap in that category by the severity-weighted penalty,
floored at 0. -/
def categoryScore (pen : RiskLevel → ℚ) (gaps : List Gap) (c : String) : ℚ :=
  max (100 - ((gaps.filter (fun g => g.category = c)).map
    (fun g => pen g.riskLevel)).sum) 0

/-- Modelled from the spec: §4.6 — the overall score is the weighted sum of
per-category scores using `weights` (a category → fraction mapping,
represented as an association list). -/
def overallScore (pen : RiskLevel → ℚ) (gaps : List Gap)
    (weights : List (String × ℚ)) : ℚ :=
  (weights.map (fun p => p.2 * categoryScore pen gaps p.1)).sum

/-- Modelled from the spec: §7 — ConfigurationError (invalid
weights/thresholds), fatal, never silently defaulted. -/
inductive ConfigurationError where
  | invalidWeights
deriving DecidableEq, Repr

/-- Modelled from the spec: the Scorecard record of §3,
{overallScore, perCategoryScore, weights}. -/
structure Scorecard where
  overallScore : ℚ
  perCategoryScore : List (String × ℚ)
  weights : List (String × ℚ)
deriving DecidableEq, Repr

/-- Modelled from the spec: §4.6 `score(gaps, weights) → Scorecard`.
Weights are validated to sum to 1.0 ± eps; otherwise the calculator fails
with a ConfigurationError instead of producing a Scorecard. -/
def score (pen : RiskLevel → ℚ) (gaps : List Gap)
    (weights : List (String × ℚ)) (eps : ℚ) :
    Except ConfigurationError Scorecard :=
  if |(weights.map Prod.snd).sum - 1| ≤ eps then
    Except.ok
      ⟨overallScore pen gaps weights,
       weights.map (fun p => ⟨p.1, categoryScore pen gaps p.1⟩),
       weights⟩
  else
    Except.error ConfigurationError.invalidWeights

/-- Modelled from the spec: the default epsilon of the weight validation
(§8 states the tolerance as 1e-6). -/
def defaultEps : ℚ := 1 / 1000000

lemma categoryScore_nonneg (pen : RiskLevel → ℚ) (gaps : List Gap)
    (c : String) : 0 ≤ categoryScore pen gaps c :=
  le_max_right _ _

lemma categoryScore_le_100 (pen : RiskLevel → ℚ)
    (hpen : ∀ r, 0 ≤ pen r) (gaps : List Gap) (c : String) :
    categoryScore pen gaps c ≤ 100 := by
  unfold categoryScore
  have hsum : 0 ≤ ((gaps.filter (fun g => g.category = c)).map
      (fun g => pen g.riskLevel)).sum := by
    apply List.sum_nonneg
    intro x hx
    simp only [List.mem_map] at hx
    obtain ⟨g, _, rfl⟩ := hx
    exact hpen g.riskLevel
  have h1 : (100 : ℚ) - ((gaps.filter (fun g => g.category = c)).map
      (fun g => pen g.riskLevel)).sum ≤ 100 := by linarith
  exact max_le h1 (by norm_num)

lemma overallScore_nonneg (pen : RiskLevel → ℚ) (gaps : List Gap)
    (weights : List (String × ℚ)) (hw : ∀ p ∈ weights, 0 ≤ p.2) :
    0 ≤ overallScore pen gaps weights := by
  apply List.sum_nonneg
  intro x hx
  simp only [List.mem_map] at hx
  obtain ⟨p, hp, rfl⟩ := hx
  exact mul_nonneg (hw p hp) (categoryScore_nonneg pen gaps p.1)

lemma overallScore_le (pen : RiskLevel → ℚ) (hpen : ∀ r, 0 ≤ pen r)
    (gaps : List Gap) (weights : List (String × ℚ))
    (hw : ∀ p ∈ weights, 0 ≤ p.2) :
    overallScore pen gaps weights ≤ 100 * (weights.map Prod.snd).sum := by
  unfold overallScore
  induction weights with
  | nil => simp
  | cons p ws ih =>
    simp only [List.map_cons, List.sum_cons]
    have hp : 0 ≤ p.2 := hw p (List.mem_cons_self p ws)
    have h1 : p.2 * categoryScore pen gaps p.1 ≤ p.2 * 100 :=
      mul_le_mul_of_nonneg_left (categoryScore_le_100 pen hpen gaps p.1) hp
    have h2 : ((ws.map (fun q => q.2 * categoryScore pen gaps q.1)).sum) ≤
        100 * (ws.map Prod.snd).sum :=
      ih (fun q hq => hw q (List.mem_cons_of_mem p hq))
    calc p.2 * categoryScore pen gaps p.1 +
          (ws.map (fun q => q.2 * categoryScore pen gaps q.1)).sum
        ≤ p.2 * 100 + 100 * (ws.map Prod.snd).sum := add_le_add h1 h2
      _ = 100 * (p.2 + (ws.map Prod.snd).sum) := by ring

lemma score_eq_ok (pen : RiskLevel → ℚ) (gaps : List Gap)
    (weights : List (String × ℚ)) (eps : ℚ) (sc : Scorecard)
    (h : score pen gaps weights eps = Except.ok sc) :
    sc = ⟨overallScore pen gaps weights,
          weights.map (fun p => ⟨p.1, categoryScore pen gaps p.1⟩),
          weights⟩ := by
  unfold score at h
  by_cases hc : |(weights.map Prod.snd).sum - 1| ≤ eps
  · rw [if_pos hc] at h
    exact (Except.ok.inj h).symm
  · rw [if_neg hc] at h
    exact absurd h (by simp)

/-- Claim C1: for every Gap set and nonnegative penalty configuration,
`score` produced from weights that are a category → fraction mapping
(each weight nonnegative, summing to 1) yields a Scorecard whose overall
score is the weighted sum of per-category scores, whose per-category
scores are 100 minus the severity-weighted penalties floored at 0, and
whose overall and per-category scores all lie in [0, 100]. -/
theorem scorecard_bounds (pen : RiskLevel → ℚ) (gaps : List Gap)
    (weights : List (String × ℚ)) (eps : ℚ) (sc : Scorecard)
    (hpen : ∀ r, 0 ≤ pen r)
    (hw : ∀ p ∈ weights, 0 ≤ p.2)
    (hs : (weights.map Prod.snd).sum = 1)
    (h : score pen gaps weights eps = Except.ok sc) :
    sc.overallScore = overallScore pen gaps weights ∧
    sc.perCategoryScore =
      weights.map (fun p => ⟨p.1, categoryScore pen gaps p.1⟩) ∧
    (0 ≤ sc.overallScore ∧ sc.overallScore ≤ 100) ∧
    ∀ p ∈ sc.perCategoryScore, 0 ≤ p.2 ∧ p.2 ≤ 100 := by
  have hsc := score_eq_ok pen gaps weights eps sc h
  subst hsc
  refine ⟨rfl, rfl, ⟨overallScore_nonneg pen gaps weights hw, ?_⟩, ?_⟩
  · have := overallScore_le pen hpen gaps weights hw
    rw [hs] at this
    linarith
  · intro p hp
    simp only [List.mem_map] at hp
    obtain ⟨q, _, rfl⟩ := hp
    exact ⟨categoryScore_nonneg pen gaps q.1,
      categoryScore_le_100 pen hpen gaps q.1⟩

/-- A sample Gap used in witnesses. -/
def wGap : Gap :=
  ⟨"g1", "Data residency", "stored offshore", RiskLevel.high,
   "Art. 7", "aml", "breach exposure"⟩

/-- Sample weights used in witnesses: aml ↦ 1/2, governance ↦ 1/2. -/
def wWeights : List (String × ℚ) := [⟨"aml", 1/2⟩, ⟨"governance", 1/2⟩]

/-- The Scorecard computed for `wGap` under `wWeights`. -/
def wSc : Scorecard := ⟨85, [⟨"aml", 70⟩, ⟨"governance", 100⟩], wWeights⟩

/-- Witness for C1 at a concrete input. -/
theorem scorecard_bounds_witness :
    0 ≤ wSc.overallScore ∧ wSc.overallScore ≤ 100 :=
  (scorecard_bounds defaultPenalty [wGap] wWeights defaultEps wSc
    (by intro r; cases r <;> norm_num [defaultPenalty])
    (by intro p hp; fin_cases hp <;> norm_num)
    (by norm_num [wWeights])
    (by simp only [score, wWeights, wGap, wSc, defaultEps, overallScore,
          categoryScore, defaultPenalty, List.filter, List.map_cons,
          List.map_nil, List.sum_cons, List.sum_nil, String.reduceEq,
          decide_False, decide_True]
        norm_num)).2.2.1

/-- Claim C4: weights whose fractions do not sum to 1.0 within epsilon make
the Scorecard Calculator fail with a ConfigurationError; no Scorecard is
ever produced from such weights (they are never silently defaulted). -/
theorem score_invalid_weights (pen : RiskLevel → ℚ) (gaps : List Gap)
    (weights : List (String × ℚ)) (eps : ℚ)
    (h : ¬ |(weights.map Prod.snd).sum - 1| ≤ eps) :
    score pen gaps weights eps =
      Except.error ConfigurationError.invalidWeights ∧
    ∀ sc : Scorecard, score pen gaps weights eps ≠ Except.ok sc := by
  have herr : score pen gaps weights eps =
      Except.error ConfigurationError.invalidWeights := by
    unfold score
    rw [if_neg h]
  refine ⟨herr, fun sc hsc => ?_⟩
  rw [herr] at hsc
  exact Except.noConfusion hsc

/-- Witness for C4 at a concrete input: weights summing to 1/2. -/
theorem score_invalid_weights_witness :
    score defaultPenalty [] [⟨"aml", (1 : ℚ)/2⟩] defaultEps =
      Except.error ConfigurationError.invalidWeights :=
  (score_invalid_weights defaultPenalty [] [⟨"aml", (1 : ℚ)/2⟩] defaultEps
    (by norm_num [defaultEps]
        rw [abs_of_nonneg (by norm_num : (0 : ℚ) ≤ 1/2)]
        norm_num)).1

lemma categoryScore_cons_le (pen : RiskLevel → ℚ) (g : Gap)
    (gaps : List Gap) (c : String) (hp : 0 ≤ pen g.riskLevel) :
    categoryScore pen (g :: gaps) c ≤ categoryScore pen gaps c := by
  unfold categoryScore
  by_cases hgc : g.category = c
  · rw [List.filter_cons_of_pos (by simpa using hgc)]
    simp only [List.map_cons, List.sum_cons]
    have : (100 : ℚ) - (pen g.riskLevel +
        ((gaps.filter (fun x => x.category = c)).map
          (fun x => pen x.riskLevel)).sum) ≤
        100 - ((gaps.filter (fun x => x.category = c)).map
          (fun x => pen x.riskLevel)).sum := by linarith
    exact max_le_max this le_rfl
  · rw [List.filter_cons_of_neg (by simpa using hgc)]

lemma overallScore_cons_high_le (pen : RiskLevel → ℚ) (g : Gap)
    (gaps : List Gap) (weights : List (String × ℚ))
    (hp : 0 ≤ pen g.riskLevel) (hw : ∀ p ∈ weights, 0 ≤ p.2) :
    overallScore pen (g :: gaps) weights ≤ overallScore pen gaps weights := by
  unfold overallScore
  apply List.sum_le_sum
  intro p hpmem
  exact mul_le_mul_of_nonneg_left
    (categoryScore_cons_le pen g gaps p.1 hp) (hw p hpmem)

/-- Claim C6: for a fixed Gap set and fixed (nonnegative) weights, adding
one additional Gap with riskLevel = high never increases the overall score
computed by the Scorecard Calculator. -/
theorem add_high_gap_never_increases (pen : RiskLevel → ℚ) (g : Gap)
    (gaps : List Gap) (weights : List (String × ℚ)) (eps : ℚ)
    (sc sc2 : Scorecard)
    (hg : g.riskLevel = RiskLevel.high)
    (hpen : 0 ≤ pen RiskLevel.high)
    (hw : ∀ p ∈ weights, 0 ≤ p.2)
    (h1 : score pen gaps weights eps = Except.ok sc)
    (h2 : score pen (g :: gaps) weights eps = Except.ok sc2) :
    sc2.overallScore ≤ sc.overallScore := by
  have e1 := score_eq_ok pen gaps weights eps sc h1
  have e2 := score_eq_ok pen (g :: gaps) weights eps sc2 h2
  subst e1
  subst e2
  exact overallScore_cons_high_le pen g gaps weights (hg ▸ hpen) hw

/-- The Scorecard computed for the empty Gap set under `wWeights`. -/
def wScEmpty : Scorecard :=
  ⟨100, [⟨"aml", 100⟩, ⟨"governance", 100⟩], wWeights⟩

/-- Witness for C6 at a concrete input: adding the high-risk `wGap` to the
empty Gap set drops the overall score from 100 to 85. -/
theorem add_high_gap_never_increases_witness :
    wSc.overallScore ≤ wScEmpty.overallScore :=
  add_high_gap_never_increases defaultPenalty wGap [] wWeights defaultEps
    wScEmpty wSc
    (by rfl)
    (by norm_num [defaultPenalty])
    (by intro p hp; fin_cases hp <;> norm_num)
    (by simp only [score, wWeights, wScEmpty, defaultEps, overallScore,
          categoryScore, defaultPenalty, List.filter, List.map_cons,
          List.map_nil, List.sum_cons, List.sum_nil, String.reduceEq,
          decide_False, decide_True]
        norm_num)
    (by simp only [score, wWeights, wGap, wSc, defaultEps, overallScore,
          categoryScore, defaultPenalty, List.filter, List.map_cons,
          List.map_nil, List.sum_cons, List.sum_nil, String.reduceEq,
          decide_False, decide_True]
        norm_num)

/-- Modelled from the spec: §4.1 Chunker — splits normalized text into an
ordered sequence of overlapping windows of size `W` with overlap `O`
(0 ≤ O < W): consecutive chunks share the last `O` units of the previous
chunk.  Empty input yields an empty sequence; a document shorter than `W`
yields exactly one chunk. -/
def chunkText (W O : ℕ) (h : O < W) (s : List Char) : List (List Char) :=
  if _h1 : s = [] then []
  else if _h2 : s.length ≤ W then [s]
  else s.take W :: chunkText W O h (s.drop (W - O))
termination_by s.length
decreasing_by
  simp only [List.length_drop]
  omega

lemma chunkText_nil (W O : ℕ) (h : O < W) : chunkText W O h [] = [] := by
  rw [chunkText]
  simp

lemma chunkText_short (W O : ℕ) (h : O < W) (s : List Char)
    (h1 : s ≠ []) (h2 : s.length ≤ W) : chunkText W O h s = [s] := by
  rw [chunkText]
  simp [h1, h2]

lemma chunkText_long (W O : ℕ) (h : O < W) (s : List Char)
    (h2 : ¬ s.length ≤ W) :
    chunkText W O h s = s.take W :: chunkText W O h (s.drop (W - O)) := by
  have h1 : s ≠ [] := by
    intro hnil
    rw [hnil] at h2
    simp at h2
  rw [chunkText]
  simp [h1, h2]

/-- Re-concatenation of a chunk tail: every chunk drops its leading `O`
units of overlap before concatenation. -/
def tailReassemble (O : ℕ) (cs : List (List Char)) : List Char :=
  (cs.map (List.drop O)).flatten

/-- Re-concatenation of a chunk sequence: the first chunk is kept whole
and each later chunk drops its leading `O` units of overlap. -/
def reassemble (O : ℕ) : List (List Char) → List Char
  | [] => []
  | c :: cs => c ++ tailReassemble O cs

lemma tailReassemble_chunkText (W O : ℕ) (h : O < W) (s : List Char) :
    tailReassemble O (chunkText W O h s) = s.drop O := by
  generalize hn : s.length = n
  induction n using Nat.strong_induction_on generalizing s with
  | _ n ih =>
    by_cases h1 : s = []
    · subst h1
      simp [chunkText_nil, tailReassemble]
    · by_cases h2 : s.length ≤ W
      · rw [chunkText_short W O h s h1 h2]
        simp [tailReassemble]
      · rw [chunkText_long W O h s h2]
        have hlt : (s.drop (W - O)).length < n := by
          rw [← hn]
          simp only [List.length_drop]
          omega
        have hrec := ih (s.drop (W - O)).length hlt (s.drop (W - O)) rfl
        show List.drop O (s.take W) ++
          tailReassemble O (chunkText W O h (s.drop (W - O))) = s.drop O
        rw [hrec, List.drop_drop]
        have hOW : W - O + O = W := by omega
        rw [hOW]
        have e1 : List.drop O (s.take W) = (s.drop O).take (W - O) := by
          rw [List.drop_take]
        have e2 : s.drop W = (s.drop O).drop (W - O) := by
          rw [List.drop_drop]
          congr 1
          omega
        rw [e1, e2, List.take_append_drop]

/-- Claim C7: chunking a document with window `W` and overlap `O`
(0 ≤ O < W) and re-concatenating the chunk texts, dropping each later
chunk's leading `O` units of overlap, reconstructs the extracted text
exactly — chunking is lossless and the chunks cover the entire input. -/
theorem chunking_lossless (W O : ℕ) (h : O < W) (s : List Char) :
    reassemble O (chunkText W O h s) = s := by
  by_cases h1 : s = []
  · subst h1
    simp [chunkText_nil, reassemble]
  · by_cases h2 : s.length ≤ W
    · rw [chunkText_short W O h s h1 h2]
      simp [reassemble, tailReassemble]
    · rw [chunkText_long W O h s h2]
      show s.take W ++ tailReassemble O (chunkText W O h (s.drop (W - O))) = s
      rw [tailReassemble_chunkText, List.drop_drop]
      have hOW : W - O + O = W := by omega
      rw [hOW, List.take_append_drop]

/-- Witness for C7 at a concrete input: window 3, overlap 1, a 7-character
document. -/
theorem chunking_lossless_witness :
    reassemble 1 (chunkText 3 1 (by norm_num) ("abcdefg".data)) =
      "abcdefg".data :=
  chunking_lossless 3 1 (by norm_num) ("abcdefg".data)

/-- Modelled from the spec: the review-relevant outcome of one evaluation
run — its overall score, its Gap set, and whether some semantic-check Gap
candidate had below-threshold classification confidence (§4.8). -/
structure EvalRun where
  runId : ℕ
  overallScore : ℚ
  gaps : List Gap
  lowConfidenceSemantic : Bool
deriving DecidableEq, Repr

/-- Modelled from the spec: §4.8 — a run transitions to Pending-Review
when its overall score is below the configured threshold, or any Gap has
riskLevel = high, or some semantic-check Gap candidate had below-threshold
classification confidence. -/
def pendingReview (threshold : ℚ) (r : EvalRun) : Bool :=
  decide (r.overallScore < threshold) ||
    r.gaps.any (fun g => g.riskLevel == RiskLevel.high) ||
    r.lowConfidenceSemantic

/-- Modelled from the spec: §6 Review interface — `listPending()` returns
the runs currently flagged Pending-Review. -/
def listPending (threshold : ℚ) (runs : List EvalRun) : List EvalRun :=
  runs.filter (pendingReview threshold)

/-- Modelled from the spec: the configured score threshold of the Review
Gate (§4.8 "e.g., 90"; the report page shows its Manual Review banner
exactly when the score is below 90). -/
def defaultScoreThreshold : ℚ := 90

/-- Claim C2: a run is found in `listPending()` if and only if its overall
score is below the threshold, or some Gap has riskLevel = high, or some
semantic-check Gap candidate had below-threshold classification
confidence; a run with none of these conditions never appears there. -/
theorem listPending_iff (threshold : ℚ) (runs : List EvalRun)
    (r : EvalRun) :
    r ∈ listPending threshold runs ↔
      r ∈ runs ∧
        (r.overallScore < threshold ∨
         (∃ g ∈ r.gaps, g.riskLevel = RiskLevel.high) ∨
         r.lowConfidenceSemantic = true) := by
  unfold listPending pendingReview
  rw [List.mem_filter]
  simp [List.any_eq_true, or_assoc]

/-- A sample flagged run for the C2 witness: overall score 80, no gaps,
no low-confidence semantic candidate. -/
def wRun : EvalRun := ⟨1, 80, [], false⟩

/-- Witness for C2 at a concrete input: a run scoring 80 with no high-risk
Gap is pending because 80 < 90. -/
theorem listPending_iff_witness :
    wRun ∈ listPending defaultScoreThreshold [wRun] :=
  (listPending_iff defaultScoreThreshold [wRun] wRun).mpr
    ⟨List.mem_singleton_self wRun,
     Or.inl (by norm_num [wRun, defaultScoreThreshold])⟩

/-- Modelled from the spec: a page of extracted text (§3 Document). -/
structure Page where
  pageNumber : ℕ
  text : String
deriving DecidableEq, Repr

/-- Modelled from the spec: the Document record of §3. -/
structure Document where
  id : String
  sourceFileRef : String
  mimeType : String
  extractedText : String
  pages : List Page
deriving DecidableEq, Repr

/-- Modelled from the spec: the RegulatoryArticle record of §3. -/
structure RegulatoryArticle where
  id : String
  sourceDoc : String
  sectionRef : String
  articleRef : String
  text : String
deriving DecidableEq, Repr

/-- Modelled from the spec: the Mapping record of §3. -/
structure Mapping where
  id : String
  startupChunkId : String
  articleId : String
  similarityScore : ℚ
  evidenceSnippet : String
  pageNumber : ℕ
deriving DecidableEq, Repr

/-- Modelled from the spec: resourceType of a Recommendation (§3). -/
inductive ResourceType where
  | program
  | expert
deriving DecidableEq, Repr

/-- Modelled from the spec: the Recommendation record of §3. -/
structure Recommendation where
  gapId : String
  resourceId : String
  resourceType : ResourceType
  relevanceScore : ℚ
deriving DecidableEq, Repr

/-- Modelled from the spec: the full result payload of `evaluate(runId)`
(§6): Scorecard, Gap[], Mapping[], Recommendation[]. -/
structure EvalResult where
  scorecard : Scorecard
  gaps : List Gap
  mappings : List Mapping
  recommendations : List Recommendation
deriving DecidableEq, Repr

/-- Modelled from the spec: persisted state (§6) — run inputs keyed by
runId, the regulatory corpus with its revision, and per-run results keyed
by runId (a re-run supersedes, it never mutates inputs or corpus). -/
structure Store where
  inputs : List (ℕ × List Document)
  corpus : List RegulatoryArticle
  corpusRevision : ℕ
  results : List (ℕ × EvalResult)

/-- Association-list lookup by runId key. -/
def lookupRun {α : Type} (k : ℕ) (l : List (ℕ × α)) : Option α :=
  (l.find? (fun p => p.1 == k)).map Prod.snd

/-- Modelled from the spec: §6 `evaluate(runId)`.  The pipeline body
(Extractor → … → Recommendation Matcher) is abstracted as a deterministic
function `pipe` of the corpus and the run's input documents, per the
determinism requirement of §4.5; `evaluate` reads the run's inputs and the
corpus, computes the result, and records it under the runId (superseding,
not mutating). -/
def evaluate (pipe : List RegulatoryArticle → List Document → EvalResult)
    (st : Store) (runId : ℕ) : Option EvalResult × Store :=
  match lookupRun runId st.inputs with
  | none => ⟨none, st⟩
  | some docs =>
      ⟨some (pipe st.corpus docs),
       ⟨st.inputs, st.corpus, st.corpusRevision,
        ⟨runId, pipe st.corpus docs⟩ :: st.results⟩⟩

/-- Claim C3: invoking `evaluate` twice with the same runId, unchanged
inputs, the same corpus revision and a fixed pipeline (model version)
returns identical results both times — the second invocation runs on the
state left by the first and still yields the same payload (Scorecard, Gap
set, Mapping set, Recommendation set alike). -/
theorem evaluate_idempotent
    (pipe : List RegulatoryArticle → List Document → EvalResult)
    (st : Store) (runId : ℕ) :
    (evaluate pipe (evaluate pipe st runId).2 runId).1 =
      (evaluate pipe st runId).1 := by
  unfold evaluate
  cases h : lookupRun runId st.inputs <;> simp [h]

/-- A sample evaluation result used in the C3 witness. -/
def wResult : EvalResult := ⟨wSc, [wGap], [], []⟩

/-- A sample store used in the C3 witness: one run (id 1) with no
documents, an empty corpus at revision 0, and no results yet. -/
def wStore : Store := ⟨[⟨1, []⟩], [], 0, []⟩

/-- Witness for C3 at a concrete input: re-running run 1 on the state left
by the first run returns the same payload. -/
theorem evaluate_idempotent_witness :
    (evaluate (fun _ _ => wResult)
      (evaluate (fun _ _ => wResult) wStore 1).2 1).1 =
    (evaluate (fun _ _ => wResult) wStore 1).1 :=
  evaluate_idempotent (fun _ _ => wResult) wStore 1

/-- The MIME types accepted by the FileDropzone (the `accept` prop of
file-dropzone.tsx): PDF and DOCX. -/
def allowedMimeTypes : List String :=
  ["application/pdf",
   "application/vnd.openxmlformats-officedocument.wordprocessingml.document"]

/-- A file submitted for ingestion, per the spec's Ingest interface
{name, mimeType, bytes}; the byte content is abstracted to its size. -/
structure SubmittedFile where
  name : String
  mimeType : String
  size : ℕ
deriving DecidableEq, Repr

/-- The per-file verdict of the Ingest interface: accepted or
rejected(reason). -/
inductive FileVerdict where
  | accepted
  | rejected (reason : String)
deriving DecidableEq, Repr

/-- The invalid-type error message of file-dropzone.tsx. -/
def invalidTypeMsg : String := "Only PDF or DOCX are supported."

/-- The oversize error message of file-dropzone.tsx, for a limit of
`maxSize` megabytes. -/
def tooLargeMsg (maxSize : ℕ) : String :=
  "Each file must be ≤ " ++ toString maxSize ++ " MB."

/-- Modelled from the spec: §6 Ingest — per-file validation of
`submitDocuments`.  The concrete policy is the FileDropzone configuration
(file-dropzone.tsx): only PDF/DOCX MIME types, at most `maxSize` MB
(maxSizeBytes = maxSize * 1024 * 1024; the component default is 25), and
the rejection reason is the dropzone's message for the violated
constraint. -/
def validateFile (maxSize : ℕ) (f : SubmittedFile) : FileVerdict :=
  if f.mimeType ∈ allowedMimeTypes then
    if f.size ≤ maxSize * 1024 * 1024 then FileVerdict.accepted
    else FileVerdict.rejected (tooLargeMsg maxSize)
  else FileVerdict.rejected invalidTypeMsg

/-- Modelled from the spec: §6 Ingest —
`submitDocuments(runId, files) → accepted | rejected(reason)` per file. -/
def submitDocuments (maxSize : ℕ) (files : List SubmittedFile) :
    List (SubmittedFile × FileVerdict) :=
  files.map (fun f => ⟨f, validateFile maxSize f⟩)

/-- Claim C5: `submitDocuments` gives every submitted file the verdict of
`validateFile`; a file is accepted iff its MIME type is PDF/DOCX and its
size is within `maxSize` MB, an unsupported MIME type is rejected with the
type message, and an oversized supported file is rejected with the size
message — every rejection names the violated constraint. -/
theorem submitDocuments_validation (maxSize : ℕ)
    (files : List SubmittedFile) (f : SubmittedFile) (hf : f ∈ files) :
    (⟨f, validateFile maxSize f⟩ : SubmittedFile × FileVerdict) ∈
      submitDocuments maxSize files ∧
    (validateFile maxSize f = FileVerdict.accepted ↔
      f.mimeType ∈ allowedMimeTypes ∧ f.size ≤ maxSize * 1024 * 1024) ∧
    (f.mimeType ∉ allowedMimeTypes →
      validateFile maxSize f = FileVerdict.rejected invalidTypeMsg) ∧
    (f.mimeType ∈ allowedMimeTypes → maxSize * 1024 * 1024 < f.size →
      validateFile maxSize f = FileVerdict.rejected (tooLargeMsg maxSize)) := by
  refine ⟨List.mem_map_of_mem (fun f => (⟨f, validateFile maxSize f⟩ :
    SubmittedFile × FileVerdict)) hf, ?_, ?_, ?_⟩
  · unfold validateFile
    by_cases hm : f.mimeType ∈ allowedMimeTypes
    · by_cases hsz : f.size ≤ maxSize * 1024 * 1024
      · simp [hm, hsz]
      · simp [hm, hsz]
    · simp [hm]
  · intro hm
    unfold validateFile
    rw [if_neg hm]
  · intro hm hsz
    unfold validateFile
    rw [if_pos hm, if_neg (by omega)]

/-- A sample rejected file used in the C5 witness. -/
def wTxtFile : SubmittedFile := ⟨"notes.txt", "text/plain", 100⟩

/-- Witness for C5 at a concrete input: a text/plain file is rejected with
the dropzone's unsupported-type message. -/
theorem submitDocuments_validation_witness :
    validateFile 25 wTxtFile = FileVerdict.rejected invalidTypeMsg :=
  (submitDocuments_validation 25 [wTxtFile] wTxtFile
    (by simp)).2.2.1 (by simp [wTxtFile, allowedMimeTypes])

/-- The status field of an UploadedFile in file-dropzone.tsx:
"pending" | "uploading" | "success" | "error". -/
inductive UploadStatus where
  | pending
  | uploading
  | success
  | error
deriving DecidableEq, Repr

/-- The UploadedFile record of file-dropzone.tsx
{file, id, progress?, status?, error?}; the browser File object is
abstracted to its name and size. -/
structure UploadedFile where
  name : String
  size : ℕ
  id : String
  progress : Option ℕ
  status : Option UploadStatus
  error : Option String
deriving DecidableEq, Repr

/-- One react-dropzone rejection error: a code and a message. -/
structure DropError where
  code : String
  message : String
deriving DecidableEq, Repr

/-- A react-dropzone rejected file: the file plus its errors. -/
structure RejectedFile where
  name : String
  size : ℕ
  errors : List DropError
deriving DecidableEq, Repr

/-- An accepted dropped file (a browser File), abstracted to name and
size. -/
structure DroppedFile where
  name : String
  size : ℕ
deriving DecidableEq, Repr

/-- The message chosen for one rejection error in onDrop
(file-dropzone.tsx): "file-too-large" ↦ the size message,
"file-invalid-type" ↦ the type message, anything else ↦ e.message. -/
def rejectionMessage (maxSize : ℕ) (e : DropError) : String :=
  if e.code = "file-too-large" then tooLargeMsg maxSize
  else if e.code = "file-invalid-type" then invalidTypeMsg
  else e.message

/-- The error entry onDrop appends for one rejected file:
{file, id: `name-Date.now()`, status: "error", error: errors[0]}.  `now`
stands for Date.now(). -/
def rejectedEntry (maxSize now : ℕ) (r : RejectedFile) : UploadedFile :=
  ⟨r.name, r.size, r.name ++ "-" ++ toString now, none,
   some UploadStatus.error, (r.errors.map (rejectionMessage maxSize)).head?⟩

/-- The pending entry onDrop appends for one accepted file:
{file, id: `name-Date.now()`, status: "pending", progress: 0}. -/
def pendingEntry (now : ℕ) (f : DroppedFile) : UploadedFile :=
  ⟨f.name, f.size, f.name ++ "-" ++ toString now, some 0,
   some UploadStatus.pending, none⟩

/-- Shallow embedding of the onDrop handler of file-dropzone.tsx: given
the current `files` list and the accepted/rejected files of one dropped
batch, returns the list passed to onFilesChange — or `files` unchanged
when the handler returns without calling onFilesChange. -/
def onDrop (maxFiles maxSize now : ℕ) (files : List UploadedFile)
    (acceptedFiles : List DroppedFile)
    (rejectedFiles : List RejectedFile) : List UploadedFile :=
  if rejectedFiles.length > 0 then
    files ++ rejectedFiles.map (rejectedEntry maxSize now)
  else if files.length + acceptedFiles.length > maxFiles then
    files
  else
    files ++ acceptedFiles.map (pendingEntry now)

/-- Claim C8: when a dropped batch contains at least one rejected file,
onDrop appends only error entries for the rejected files and returns
early: the result does not depend on the accepted files of that batch, so
every accepted file is silently discarded. -/
theorem onDrop_rejected_discards_accepted (maxFiles maxSize now : ℕ)
    (files : List UploadedFile) (acc acc2 : List DroppedFile)
    (rej : List RejectedFile) (hrej : rej ≠ []) :
    onDrop maxFiles maxSize now files acc rej =
      files ++ rej.map (rejectedEntry maxSize now) ∧
    (∀ e ∈ rej.map (rejectedEntry maxSize now),
      e.status = some UploadStatus.error) ∧
    onDrop maxFiles maxSize now files acc rej =
      onDrop maxFiles maxSize now files acc2 rej := by
  have hlen : rej.length > 0 := List.length_pos.mpr hrej
  have h1 : onDrop maxFiles maxSize now files acc rej =
      files ++ rej.map (rejectedEntry maxSize now) := by
    unfold onDrop
    rw [if_pos hlen]
  have h2 : onDrop maxFiles maxSize now files acc2 rej =
      files ++ rej.map (rejectedEntry maxSize now) := by
    unfold onDrop
    rw [if_pos hlen]
  refine ⟨h1, ?_, h1.trans h2.symm⟩
  intro e he
  simp only [List.mem_map] at he
  obtain ⟨r, _, rfl⟩ := he
  rfl

/-- A sample rejected file used in the C8 witness. -/
def wRej : RejectedFile :=
  ⟨"big.pdf", 30000000, [⟨"file-too-large", "File is larger than 26214400 bytes"⟩]⟩

/-- Witness for C8 at a concrete input: one rejected file, one accepted
file; the accepted file is discarded and only the error entry is
appended. -/
theorem onDrop_rejected_discards_accepted_witness :
    onDrop 10 25 7 [] [⟨"ok.pdf", 1000⟩] [wRej] =
      [] ++ [wRej].map (rejectedEntry 25 7) :=
  (onDrop_rejected_discards_accepted 10 25 7 [] [⟨"ok.pdf", 1000⟩] []
    [wRej] (by simp)).1

/-- Claim C9: for a dropped batch with no rejected files, when the current
file count plus the accepted count exceeds maxFiles, onDrop returns with
the file list completely unchanged — no file is added and no error entry
is recorded. -/
theorem onDrop_overflow_unchanged (maxFiles maxSize now : ℕ)
    (files : List UploadedFile) (acc : List DroppedFile)
    (rej : List RejectedFile) (hrej : rej = [])
    (hover : files.length + acc.length > maxFiles) :
    onDrop maxFiles maxSize now files acc rej = files := by
  subst hrej
  unfold onDrop
  simp [hover]

/-- Witness for C9 at a concrete input: maxFiles = 1, one file already
listed, one more accepted file — the list stays unchanged. -/
theorem onDrop_overflow_unchanged_witness :
    onDrop 1 25 7 [pendingEntry 3 ⟨"a.pdf", 10⟩] [⟨"b.pdf", 20⟩] [] =
      [pendingEntry 3 ⟨"a.pdf", 10⟩] :=
  onDrop_overflow_unchanged 1 25 7 [pendingEntry 3 ⟨"a.pdf", 10⟩]
    [⟨"b.pdf", 20⟩] [] rfl (by simp)

/-- The gap record of ReportPage (NewApplication.tsx):
{id, title, description, risk, framework, impact}. -/
structure ReportGap where
  id : String
  title : String
  description : String
  risk : RiskLevel
  framework : String
  impact : String
deriving DecidableEq, Repr

/-- Shallow embedding of ReportPage's "Key Areas Requiring Attention"
list (NewApplication.tsx): the high-risk gaps in array order capped at 3,
each numbered index + 1; only when fewer than 3 high-risk gaps exist,
medium-risk gaps fill the remaining slots, numbered
highCount + index + 1.  Each element is (displayed number, gap). -/
def keyAreas (gaps : List ReportGap) : List (ℕ × ReportGap) :=
  (((gaps.filter (fun g => g.risk == RiskLevel.high)).take 3).enum.map
    (fun p => ⟨p.1 + 1, p.2⟩)) ++
  (if (gaps.filter (fun g => g.risk == RiskLevel.high)).length < 3 then
    ((gaps.filter (fun g => g.risk == RiskLevel.medium)).take
      (3 - (gaps.filter (fun g => g.risk == RiskLevel.high)).length)).enum.map
      (fun p =>
        ⟨(gaps.filter (fun g => g.risk == RiskLevel.high)).length + p.1 + 1,
         p.2⟩)
  else [])

lemma enum_succ_fst {α : Type} (l : List α) :
    ((l.enum.map (fun p => ((p.1 + 1 : ℕ), p.2))).map Prod.fst) =
      (List.range l.length).map (fun i => i + 1) := by
  rw [List.map_map]
  rw [show (Prod.fst ∘ fun p : ℕ × α => ((p.1 + 1 : ℕ), p.2)) =
      ((fun i => i + 1) ∘ Prod.fst) from rfl]
  rw [← List.map_map, List.enum_map_fst]

lemma enum_offset_fst {α : Type} (k : ℕ) (l : List α) :
    ((l.enum.map (fun p => ((k + p.1 + 1 : ℕ), p.2))).map Prod.fst) =
      (List.range l.length).map (fun i => k + i + 1) := by
  rw [List.map_map]
  rw [show (Prod.fst ∘ fun p : ℕ × α => ((k + p.1 + 1 : ℕ), p.2)) =
      ((fun i => k + i + 1) ∘ Prod.fst) from rfl]
  rw [← List.map_map, List.enum_map_fst]

lemma enum_succ_snd {α : Type} (l : List α) :
    ((l.enum.map (fun p => ((p.1 + 1 : ℕ), p.2))).map Prod.snd) = l := by
  rw [List.map_map]
  rw [show (Prod.snd ∘ fun p : ℕ × α => ((p.1 + 1 : ℕ), p.2)) =
      (Prod.snd : ℕ × α → α) from rfl]
  exact List.enum_map_snd l

lemma enum_offset_snd {α : Type} (k : ℕ) (l : List α) :
    ((l.enum.map (fun p => ((k + p.1 + 1 : ℕ), p.2))).map Prod.snd) = l := by
  rw [List.map_map]
  rw [show (Prod.snd ∘ fun p : ℕ × α => ((k + p.1 + 1 : ℕ), p.2)) =
      (Prod.snd : ℕ × α → α) from rfl]
  exact List.enum_map_snd l

lemma keyAreas_snd (gaps : List ReportGap) :
    (keyAreas gaps).map Prod.snd =
      (gaps.filter (fun g => g.risk == RiskLevel.high)).take 3 ++
      (gaps.filter (fun g => g.risk == RiskLevel.medium)).take
        (3 - (gaps.filter (fun g => g.risk == RiskLevel.high)).length) := by
  unfold keyAreas
  by_cases hlt : (gaps.filter (fun g => g.risk == RiskLevel.high)).length < 3
  · rw [if_pos hlt, List.map_append, enum_succ_snd, enum_offset_snd]
  · rw [if_neg hlt, List.append_nil, enum_succ_snd]
    have h30 : 3 - (gaps.filter (fun g => g.risk == RiskLevel.high)).length
        = 0 := by omega
    rw [h30, List.take_zero, List.append_nil]

/-- Claim C10: the "Key Areas Requiring Attention" list shows at most 3
gaps; the high-risk gaps come first in array order capped at 3, medium
gaps are appended only when fewer than 3 high-risk gaps exist, low-risk
gaps never appear, and the displayed numbering is exactly 1..n,
consecutive across the two groups. -/
theorem keyAreas_spec (gaps : List ReportGap) :
    (keyAreas gaps).length ≤ 3 ∧
    (keyAreas gaps).map Prod.snd =
      (gaps.filter (fun g => g.risk == RiskLevel.high)).take 3 ++
      (gaps.filter (fun g => g.risk == RiskLevel.medium)).take
        (3 - (gaps.filter (fun g => g.risk == RiskLevel.high)).length) ∧
    (∀ p ∈ keyAreas gaps, p.2.risk ≠ RiskLevel.low) ∧
    (keyAreas gaps).map Prod.fst =
      (List.range (keyAreas gaps).length).map (fun i => i + 1) := by
  refine ⟨?_, keyAreas_snd gaps, ?_, ?_⟩
  · have heq := keyAreas_snd gaps
    have hlen : (keyAreas gaps).length =
        ((keyAreas gaps).map Prod.snd).length := (List.length_map _ _).symm
    rw [hlen, heq, List.length_append, List.length_take, List.length_take]
    omega
  · intro p hp
    have hmem : p.2 ∈ (keyAreas gaps).map Prod.snd :=
      List.mem_map_of_mem Prod.snd hp
    rw [keyAreas_snd gaps] at hmem
    rcases List.mem_append.mp hmem with hh | hm
    · have : p.2 ∈ gaps.filter (fun g => g.risk == RiskLevel.high) :=
        List.take_subset 3 _ hh
      have := (List.mem_filter.mp this).2
      simp only [beq_iff_eq] at this
      rw [this]
      intro hcontra
      exact RiskLevel.noConfusion hcontra
    · have : p.2 ∈ gaps.filter (fun g => g.risk == RiskLevel.medium) :=
        List.take_subset _ _ hm
      have := (List.mem_filter.mp this).2
      simp only [beq_iff_eq] at this
      rw [this]
      intro hcontra
      exact RiskLevel.noConfusion hcontra
  · unfold keyAreas
    by_cases hlt : (gaps.filter (fun g => g.risk == RiskLevel.high)).length < 3
    · rw [if_pos hlt]
      rw [List.map_append, enum_succ_fst, enum_offset_fst,
        List.length_append, List.length_map, List.length_map,
        List.enum_length, List.enum_length]
      have htake : (gaps.filter (fun g => g.risk == RiskLevel.high)).take 3 =
          gaps.filter (fun g => g.risk == RiskLevel.high) :=
        List.take_of_length_le (by omega)
      rw [htake, List.range_add, List.map_append, List.map_map]
      congr 1
    · rw [if_neg hlt, List.append_nil, enum_succ_fst, List.length_map,
        List.enum_length]

/-- The mock gaps array of ReportPage (NewApplication.tsx): two high-risk,
two medium-risk, one low-risk gap. -/
def reportGaps : List ReportGap :=
  [⟨"1", "Data Encryption at Rest",
    "Personal data is not encrypted when stored in databases",
    RiskLevel.high, "GDPR", "Potential data breach exposure"⟩,
   ⟨"2", "Access Control Logging",
    "Insufficient logging of user access to sensitive systems",
    RiskLevel.high, "ISO 27001", "Unable to track unauthorized access attempts"⟩,
   ⟨"3", "Data Retention Policy",
    "Missing clear data retention and deletion procedures",
    RiskLevel.medium, "QFCRA", "Non-compliance with data minimization principles"⟩,
   ⟨"4", "Incident Response Plan",
    "Security incident response procedures need updating",
    RiskLevel.medium, "ISO 27001", "Delayed response to security incidents"⟩,
   ⟨"5", "Privacy Impact Assessment",
    "PIA documentation is incomplete for new data processing activities",
    RiskLevel.low, "GDPR", "Insufficient privacy risk documentation"⟩]

/-- Witness for C10 at a concrete input: on the report page's own mock
gaps array at most three key areas are listed. -/
theorem keyAreas_spec_witness : (keyAreas reportGaps).length ≤ 3 :=
  (keyAreas_spec reportGaps).1

end StartCop
